import Mathlib

/-!
Verification development for the pricecart repository.

Shallow embedding of the provider-resilience layer (token-bucket rate
limiter, circuit breaker, resilient HTTP retry, TTL cache) and the price
quoting engine (quoteCart, submitPrice, Kroger live-price location
matching), translated from the TypeScript sources:

  apps/api/src/lib/rateLimit.ts
  apps/api/src/lib/circuitBreaker.ts
  apps/api/src/lib/cache.ts
  apps/api/src/services/pricing.ts
  apps/api/src/services/krogerLivePrices.ts
  the resilient HTTP client (fetchWithRetry)

JavaScript numbers are modelled as exact rationals (ℚ); timestamps in
whole seconds (`nowSec` floors to an integer) as ℕ; money in integer
cents as ℤ.  The persisted D1 tables are modelled as explicit state
passed in and out of each operation.
-/

set_option maxHeartbeats 1000000

namespace Pricecart

attribute [local semireducible] Rat.add Rat.mul Rat.inv Rat.sub

/-- JavaScript `Math.round`: rounds to the nearest integer, halves toward
positive infinity. -/
def jsRound (q : ℚ) : ℤ := ⌊q + 1/2⌋

/-- `clamp01` from pricing.ts: clamp a number into the interval [0, 1]. -/
def clamp01 (x : ℚ) : ℚ :=
  if x < 0 then 0
  else if 1 < x then 1
  else x

/-! ## Token bucket rate limiter (apps/api/src/lib/rateLimit.ts) -/

/-- `TokenBucketConfig` from rateLimit.ts. -/
structure TokenBucketConfig where
  capacity : ℚ
  refillPerSec : ℚ
  cost : ℚ
deriving Repr, DecidableEq

/-- One row of the `rate_limits` table: the state persisted per key. -/
structure RateLimitRow where
  tokens : ℚ
  updated_at : ℕ
deriving Repr, DecidableEq

/-- `takeToken` from rateLimit.ts, for a single key.  Takes the stored row
for the key (`none` when absent), the config and the current time; returns
the allow/deny decision together with the row written back
(written unconditionally, also on denial). -/
def takeToken (rowOpt : Option RateLimitRow) (cfg : TokenBucketConfig) (t : ℕ) :
    Bool × RateLimitRow :=
  let tokens0 : ℚ := (rowOpt.map RateLimitRow.tokens).getD cfg.capacity
  let updatedAt : ℕ := (rowOpt.map RateLimitRow.updated_at).getD t
  let elapsed : ℚ := max 0 ((t : ℚ) - (updatedAt : ℚ))
  let tokens1 : ℚ := min cfg.capacity (tokens0 + elapsed * cfg.refillPerSec)
  let allowed : Bool := decide (cfg.cost ≤ tokens1)
  let tokens2 : ℚ := if allowed then tokens1 - cfg.cost else tokens1
  (allowed, ⟨tokens2, t⟩)

/-- A run of `n` consecutive `takeToken` calls on the same key at a fixed
clock reading, threading the persisted row; returns the list of
allow/deny results in order. -/
def takeTokenRun (cfg : TokenBucketConfig) (t : ℕ) : ℕ → Option RateLimitRow → List Bool
  | 0, _ => []
  | n + 1, rowOpt =>
    let r := takeToken rowOpt cfg t
    r.1 :: takeTokenRun cfg t n (some r.2)

/-! ## Circuit breaker (apps/api/src/lib/circuitBreaker.ts) -/

/-- One row of the `provider_health` table. -/
structure ProviderHealthRow where
  consecutive_failures : ℕ
  open_until : ℕ
deriving Repr, DecidableEq

/-- `isOpen` from circuitBreaker.ts: absent row means closed; otherwise the
breaker is open exactly when `open_until > now`. -/
def isOpen (rowOpt : Option ProviderHealthRow) (t : ℕ) : Bool :=
  match rowOpt with
  | none => false
  | some row => decide (t < row.open_until)

/-- The row written by `recordSuccess`: failures reset to 0, `open_until`
reset to 0. -/
def recordSuccessRow : ProviderHealthRow := ⟨0, 0⟩

/-- `recordFailure` from circuitBreaker.ts: increments the consecutive
failure count; once it reaches `tripAfter` the open window is set to
`now + openForSec`, otherwise the previous `open_until` (0 when absent)
is kept.  Returns the row written back. -/
def recordFailure (rowOpt : Option ProviderHealthRow) (tripAfter openForSec t : ℕ) :
    ProviderHealthRow :=
  let failures : ℕ := (rowOpt.map ProviderHealthRow.consecutive_failures).getD 0 + 1
  let openUntil : ℕ :=
    if tripAfter ≤ failures then t + openForSec
    else (rowOpt.map ProviderHealthRow.open_until).getD 0
  ⟨failures, openUntil⟩

/-- A sequence of `recordFailure` calls at the given times (in order),
with no intervening `recordSuccess`, threading the persisted row. -/
def recordFailures (tripAfter openForSec : ℕ) :
    List ℕ → Option ProviderHealthRow → Option ProviderHealthRow
  | [], rowOpt => rowOpt
  | t :: ts, rowOpt =>
    recordFailures tripAfter openForSec ts (some (recordFailure rowOpt tripAfter openForSec t))

/-! ## TTL cache (apps/api/src/lib/cache.ts) -/

/-- One row of the `query_cache` table (payload kept abstract). -/
structure CacheRow (α : Type) where
  payload : α
  created_at : ℕ
  expires_at : ℕ
deriving Repr, DecidableEq

/-- Result shape of `cachePeek`. -/
structure CachePeekResult (α : Type) where
  payload : α
  expires_at : ℕ
  is_fresh : Bool
deriving Repr, DecidableEq

/-- `cacheGet` from cache.ts, for a single key: `null` when the row is
absent or expired (`expires_at ≤ now`), the payload otherwise. -/
def cacheGet {α : Type} (rowOpt : Option (CacheRow α)) (t : ℕ) : Option α :=
  match rowOpt with
  | none => none
  | some row => if row.expires_at ≤ t then none else some row.payload

/-- `cachePut` from cache.ts: the row written for the key,
expiring `ttlSec` after the write time. -/
def cachePut {α : Type} (payload : α) (ttlSec : ℕ) (t : ℕ) : CacheRow α :=
  ⟨payload, t, t + ttlSec⟩

/-- `cachePeek` from cache.ts: returns even expired entries, flagging
freshness as `expires_at > now`. -/
def cachePeek {α : Type} (rowOpt : Option (CacheRow α)) (t : ℕ) :
    Option (CachePeekResult α) :=
  match rowOpt with
  | none => none
  | some row => some ⟨row.payload, row.expires_at, decide (t < row.expires_at)⟩

/-! ## Quote engine and price submission (apps/api/src/services/pricing.ts) -/

/-- Rate budget `RL_QUOTE` from pricing.ts: capacity 60, refill 1/2 per second,
cost 1. -/
def RL_QUOTE : TokenBucketConfig := ⟨60, 1/2, 1⟩

/-- Rate budget `RL_SUBMIT` from pricing.ts: capacity 20, refill 1/60 per
second, cost 1. -/
def RL_SUBMIT : TokenBucketConfig := ⟨20, 1/60, 1⟩

/-- A row of the `stores` table (the columns pricing.ts reads). -/
structure StoreRow where
  id : String
  name : String
deriving Repr, DecidableEq

/-- A row of the `cart_items` table for one session. -/
structure CartItemRow where
  upc : String
  quantity : ℤ
deriving Repr, DecidableEq

/-- A row of the `price_snapshots` table. -/
structure Snapshot where
  id : String
  store_id : String
  upc : String
  price_cents : ℤ
  currency : String
  observed_at : ℕ
  source : String
  evidence_type : String
  confidence : ℚ
  submitter_session_id : Option String
  created_at : ℕ
deriving Repr, DecidableEq

/-- The D1 database state the pricing service reads and writes.
`cart_items` is keyed by session and already ordered by `updated_at DESC`
(the order the source query returns); `snapshots` is in insertion (rowid)
order, the scan order of an unordered `LIMIT 1` lookup. -/
structure Db where
  rate_limits : String → Option RateLimitRow
  stores : List StoreRow
  products : List String
  cart_items : String → List CartItemRow
  snapshots : List Snapshot

/-- `freshnessBucket` from pricing.ts: classify a price observation's age. -/
inductive FreshnessBucket
  | fresh | recent | stale | old
deriving Repr, DecidableEq

/-- `freshnessBucket` from pricing.ts: age ≤ 2 days is fresh, ≤ 7 recent,
≤ 30 stale, otherwise old. -/
def freshnessBucket (now observedAt : ℕ) : FreshnessBucket :=
  let ageSec : ℚ := max 0 ((now : ℚ) - (observedAt : ℚ))
  let ageDays : ℚ := ageSec / 86400
  if ageDays ≤ 2 then .fresh
  else if ageDays ≤ 7 then .recent
  else if ageDays ≤ 30 then .stale
  else .old

/-- `adjustedTotal` from pricing.ts: divide the raw total by the
completeness, floored at 0.25, and round. -/
def adjustedTotal (total : ℤ) (completeness : ℚ) : ℤ :=
  let denom : ℚ := max (1/4) completeness
  jsRound ((total : ℚ) / denom)

/-- `median` from pricing.ts: `null` on an empty list, otherwise the middle
element of the ascending sort, averaging (with `Math.round`) the two middle
elements when the length is even. -/
def median (nums : List ℤ) : Option ℤ :=
  if nums.length = 0 then none
  else
    let a := List.insertionSort (· ≤ ·) nums
    let mid := a.length / 2
    if a.length % 2 = 1 then some (a.getD mid 0)
    else some (jsRound (((a.getD (mid - 1) 0 : ℚ) + (a.getD mid 0 : ℚ)) / 2))

/-- The window-function ordering of pricing.ts's best-price query:
`s` beats the current best `b` when it was observed later, or observed at
the same time with strictly higher confidence. -/
def betterPrice (b s : Snapshot) : Bool :=
  decide (b.observed_at < s.observed_at) ||
    (decide (b.observed_at = s.observed_at) && decide (b.confidence < s.confidence))

/-- The `ROW_NUMBER ... WHERE rn = 1` query of quoteCart: the single best
price row for a (store, upc) pair, ordered by `observed_at DESC,
confidence DESC` (ties resolved by scan order, first row winning). -/
def bestPriceFor (snaps : List Snapshot) (store_id upc : String) : Option Snapshot :=
  (snaps.filter (fun s => decide (s.store_id = store_id) && decide (s.upc = upc))).foldl
    (fun best s =>
      match best with
      | none => some s
      | some b => if betterPrice b s then some s else some b)
    none

/-- One line of a store quote (the per-line object quoteCart builds). -/
structure QuoteLine where
  upc : String
  quantity : ℤ
  unit_price_cents : Option ℤ
  extended_price_cents : Option ℤ
  missing : Bool
  observed_at : Option ℕ
  source : Option String
  evidence_type : Option String
  confidence : Option ℚ
  freshness : Option FreshnessBucket
deriving Repr, DecidableEq

/-- The per-store entry of a quote response. -/
structure StoreQuote where
  store_id : String
  store_name : String
  currency : String
  item_count : ℕ
  matched_count : ℕ
  missing_count : ℕ
  completeness : ℚ
  total_cents : ℤ
  adjusted_total_cents : ℤ
  lines : List QuoteLine
deriving Repr, DecidableEq

/-- The `CartQuoteResponse` quoteCart returns. -/
structure QuoteResponse where
  session_id : String
  generated_at : ℕ
  currency : String
  cheapest_store_id : Option String
  stores : List StoreQuote
  warnings : List String
deriving Repr, DecidableEq

/-- The line quoteCart builds for one cart item at one store: a missing
line when no price row exists, otherwise the priced line with extended
price, clamped confidence and freshness bucket. -/
def quoteLineFor (snaps : List Snapshot) (t : ℕ) (store_id : String) (it : CartItemRow) :
    QuoteLine :=
  match bestPriceFor snaps store_id it.upc with
  | none => ⟨it.upc, it.quantity, none, none, true, none, none, none, none, none⟩
  | some p =>
    let ext := p.price_cents * it.quantity
    ⟨it.upc, it.quantity, some p.price_cents, some ext, false, some p.observed_at,
      some p.source, some p.evidence_type, some (clamp01 p.confidence),
      some (freshnessBucket t p.observed_at)⟩

/-- The per-store aggregation of quoteCart: matched/missing counts, raw
total (the sum of extended prices of matched lines), completeness
(`matched / itemCount`, 0 on an empty cart) and adjusted total. -/
def storeQuoteFor (snaps : List Snapshot) (cartItems : List CartItemRow) (t : ℕ)
    (store : StoreRow) : StoreQuote :=
  let lines := cartItems.map (quoteLineFor snaps t store.id)
  let itemCount := cartItems.length
  let matched := (lines.filter (fun l => !l.missing)).length
  let missing := (lines.filter (fun l => l.missing)).length
  let total : ℤ := lines.foldl (fun acc l => acc + (l.extended_price_cents.getD 0)) 0
  let completeness : ℚ := if itemCount = 0 then 0 else (matched : ℚ) / (itemCount : ℚ)
  ⟨store.id, store.name, "USD", itemCount, matched, missing, completeness, total,
    adjustedTotal total completeness, lines⟩

/-- quoteCart's ranking comparator (as a "sorts before" test): higher
completeness first, then lower adjusted total, then lower raw total. -/
def quoteBefore (a b : StoreQuote) : Bool :=
  if a.completeness ≠ b.completeness then decide (b.completeness < a.completeness)
  else if a.adjusted_total_cents ≠ b.adjusted_total_cents then
    decide (a.adjusted_total_cents < b.adjusted_total_cents)
  else decide (a.total_cents ≤ b.total_cents)

/-- Insert one store quote into an already ranked list (stable insertion
sort realising the comparator sort of quoteCart). -/
def insertRanked (a : StoreQuote) : List StoreQuote → List StoreQuote
  | [] => [a]
  | b :: rest => if quoteBefore a b then a :: b :: rest else b :: insertRanked a rest

/-- The stable sort quoteCart applies with its comparator. -/
def rankStores : List StoreQuote → List StoreQuote
  | [] => []
  | a :: rest => insertRanked a (rankStores rest)

/-- `Array.from(new Set(xs))` of quoteCart: deduplicate, keeping the first
occurrence of each id in order. -/
def dedupPreserve (l : List String) : List String :=
  l.foldl (fun acc x => if x ∈ acc then acc else acc ++ [x]) []

/-- `quoteCart` from pricing.ts: rate-limit the session, collapse the
requested store ids to the first 20 distinct ones, load the cart, warn on
an empty cart and on unknown store ids, build one `StoreQuote` per
resolvable store, and pick the top-ranked store as cheapest.  Returns the
response (or the thrown error code) together with the database state after
the call (the rate-limit row is persisted even on denial). -/
def quoteCart (db : Db) (session_id : String) (store_ids : List String) (t : ℕ) :
    Except String QuoteResponse × Db :=
  let key := "quote:" ++ session_id
  let tk := takeToken (db.rate_limits key) RL_QUOTE t
  let db1 : Db := { db with rate_limits := fun k => if k = key then some tk.2 else db.rate_limits k }
  if !tk.1 then (.error "RATE_LIMITED", db1)
  else
    let storeIds := (dedupPreserve store_ids).take 20
    let cartItems := db.cart_items session_id
    let itemCount := cartItems.length
    let warnings0 : List String := if itemCount = 0 then ["CART_EMPTY"] else []
    let findStore : String → Option StoreRow := fun id => db.stores.find? (fun s => decide (s.id = id))
    let resolvedStoreIds := storeIds.filter (fun id => (findStore id).isSome)
    let missingStores := storeIds.filter (fun id => !(findStore id).isSome)
    let warnings := warnings0 ++
      (if missingStores.isEmpty then []
       else ["UNKNOWN_STORES:" ++ String.intercalate "," missingStores])
    let outStores := resolvedStoreIds.filterMap
      (fun store_id => (findStore store_id).map (storeQuoteFor db.snapshots cartItems t))
    let ranked := rankStores outStores
    let cheapest := ranked.head?
    (.ok ⟨session_id, t, "USD", cheapest.map StoreQuote.store_id, outStores, warnings⟩, db1)

/-- The input of `submitPrice`. -/
structure SubmitInput where
  session_id : String
  store_id : String
  upc : String
  price_cents : ℤ
  currency : String
  observed_at : Option ℕ
  evidence_type : String
deriving Repr, DecidableEq

/-- The duplicate test of submitPrice's dedupe query: same store, upc and
price, observed within 3600 seconds of the submission. -/
def dupPred (input : SubmitInput) (observedAt : ℕ) (s : Snapshot) : Bool :=
  decide (s.store_id = input.store_id) && decide (s.upc = input.upc) &&
    decide (s.price_cents = input.price_cents) &&
    decide (|(s.observed_at : ℤ) - (observedAt : ℤ)| ≤ 3600)

/-- submitPrice's history query: the `price_cents` of the 25 most recent
snapshots for a (store, upc) pair (`ORDER BY observed_at DESC LIMIT 25`,
ties resolved stably by scan order). -/
def recentHistory (snaps : List Snapshot) (store_id upc : String) : List ℤ :=
  ((List.insertionSort (fun a b : Snapshot => b.observed_at ≤ a.observed_at)
      (snaps.filter (fun s => decide (s.store_id = store_id) && decide (s.upc = upc)))).take 25).map
    Snapshot.price_cents

/-- submitPrice's outlier test against the history median: the price is an
outlier when it is below `Math.floor(median × 0.3)` or above
`Math.ceil(median × 3.0)` (exact rational arithmetic; for the integer
medians involved the IEEE-double computation floors/ceils to the same
integers). -/
def isOutlierPrice (medOpt : Option ℤ) (price : ℤ) : Bool :=
  match medOpt with
  | none => false
  | some med =>
    decide (price < ⌊(med : ℚ) * (3/10)⌋) || decide (⌈(med : ℚ) * 3⌉ < price)

/-- `submitPrice` from pricing.ts: rate-limit the session, require the
store and product to exist, default `observed_at` to now and reject
far-future timestamps, return the id of an existing identical snapshot
within one hour instead of inserting, reject outliers against the median
of recent history, and otherwise insert a fresh `community` snapshot under
the caller-supplied fresh id (`crypto.randomUUID`, modelled as the `newId`
argument).  Returns the result (or thrown error code) with the database
state after the call. -/
def submitPrice (db : Db) (input : SubmitInput) (t : ℕ) (newId : String) :
    Except String String × Db :=
  let key := "price_submit:" ++ input.session_id
  let tk := takeToken (db.rate_limits key) RL_SUBMIT t
  let db1 : Db := { db with rate_limits := fun k => if k = key then some tk.2 else db.rate_limits k }
  if !tk.1 then (.error "RATE_LIMITED", db1)
  else if (db.stores.find? (fun s => decide (s.id = input.store_id))).isNone then
    (.error "STORE_NOT_FOUND", db1)
  else if !(db.products.contains input.upc) then (.error "PRODUCT_NOT_FOUND", db1)
  else
    let observedAt := input.observed_at.getD t
    if t + 86400 < observedAt then (.error "OBSERVED_AT_IN_FUTURE", db1)
    else
      match db.snapshots.find? (dupPred input observedAt) with
      | some dup => (.ok dup.id, db1)
      | none =>
        let med := median (recentHistory db.snapshots input.store_id input.upc)
        if isOutlierPrice med input.price_cents then (.error "OUTLIER_PRICE", db1)
        else
          let confidenceBase : ℚ := if input.evidence_type = "receipt_text" then 3/5 else 9/20
          let snap : Snapshot :=
            ⟨newId, input.store_id, input.upc, input.price_cents, input.currency, observedAt,
              "community", input.evidence_type, clamp01 confidenceBase,
              some input.session_id, t⟩
          (.ok newId, { db1 with snapshots := db1.snapshots ++ [snap] })

/-! ## Resilient HTTP client (`fetchWithRetry`)

The backoff delays, jitter and `Retry-After` handling only affect timing,
not which response is returned or how many underlying fetches are made, so
real time is not modelled.  The successive underlying fetch results are
given as a function from the attempt number (1-based). -/

/-- The result of one underlying fetch attempt: a response with a status,
or a thrown transport/timeout error. -/
inductive FetchOutcome
  | ok (status : ℕ)
  | err
deriving Repr, DecidableEq

/-- How `fetchWithRetry` finishes: return a response, throw an `HttpError`
(a retryable status on the final attempt), or re-throw the last transport
error. -/
inductive RetryOutcome
  | success (status : ℕ)
  | httpError (status : ℕ)
  | transportError
deriving Repr, DecidableEq

/-- The attempt loop of `fetchWithRetry`.  `attempt` is the 1-based attempt
number; the second argument is the number of attempts remaining including
the current one (`totalAttempts - attempt + 1`), so it is 1 exactly on the
final attempt (`attempt >= totalAttempts`).  Also counts the underlying
fetch calls made. -/
def retryLoop (responses : ℕ → FetchOutcome) (isIdem : Bool) (retryOn : List ℕ) :
    ℕ → ℕ → RetryOutcome × ℕ
  | _, 0 => (.transportError, 0)
  | attempt, k + 1 =>
    match responses attempt with
    | .ok s =>
      if !isIdem || !(retryOn.contains s) then (.success s, 1)
      else if k = 0 then (.httpError s, 1)
      else
        let r := retryLoop responses isIdem retryOn (attempt + 1) k
        (r.1, r.2 + 1)
    | .err =>
      if !isIdem || k = 0 then (.transportError, 1)
      else
        let r := retryLoop responses isIdem retryOn (attempt + 1) k
        (r.1, r.2 + 1)

/-- `fetchWithRetry`: requests are idempotent when explicitly marked, or by
default exactly for the (upper-cased) methods GET and HEAD; at least one
attempt is always made (`Math.max(1, attempts)`).  Returns how the call
finishes and the number of underlying fetch calls. -/
def fetchWithRetry (responses : ℕ → FetchOutcome) (method : String)
    (isIdemOpt : Option Bool) (retryOn : List ℕ) (attempts : ℕ) : RetryOutcome × ℕ :=
  let isIdem := isIdemOpt.getD (decide (method = "GET") || decide (method = "HEAD"))
  let totalAttempts := max 1 attempts
  retryLoop responses isIdem retryOn 1 totalAttempts

/-! ## Kroger live-price location matching
(apps/api/src/services/krogerLivePrices.ts) -/

/-- A provider location candidate returned by the locations-near-store
call. -/
structure KrogerLocation where
  locationId : String
  lat : ℚ
  lon : ℚ
deriving Repr, DecidableEq

/-- A row of the `store_provider_mappings` table. -/
structure MappingRow where
  store_id : String
  provider : String
  provider_location_id : String
  match_method : String
  match_score : ℚ
  created_at : ℕ
  verified_at : ℕ
deriving Repr, DecidableEq

/-- `MATCH_THRESHOLD_METERS` from krogerLivePrices.ts. -/
def MATCH_THRESHOLD_METERS : ℚ := 700

/-- `LOCATION_CACHE_MIN_FRESH_SEC` from krogerLivePrices.ts: 90 days. -/
def LOCATION_CACHE_MIN_FRESH_SEC : ℤ := 90 * 24 * 60 * 60

/-- `getMappedLocationId`: a persisted mapping is used only while
`now − verified_at` is under the 90-day freshness floor. -/
def getMappedLocationId (rowOpt : Option MappingRow) (t : ℕ) : Option String :=
  match rowOpt with
  | none => none
  | some row =>
    if (t : ℤ) - (row.verified_at : ℤ) < LOCATION_CACHE_MIN_FRESH_SEC then
      some row.provider_location_id
    else none

/-- One iteration of `pickBestLocation`'s loop: keep the candidate at
strictly smaller distance from the store. `dist storeLat storeLon lat lon`
stands for `distanceMeters` (lib/geo.ts — the haversine formula; kept as a
parameter since its trigonometric body has no executable embedding, and
every theorem below holds for an arbitrary distance function). -/
def pickBestStep (dist : ℚ → ℚ → ℚ → ℚ → ℚ) (storeLat storeLon : ℚ)
    (best : Option (KrogerLocation × ℚ)) (loc : KrogerLocation) :
    Option (KrogerLocation × ℚ) :=
  let d := dist storeLat storeLon loc.lat loc.lon
  match best with
  | none => some (loc, d)
  | some b => if d < b.2 then some (loc, d) else some b

/-- `pickBestLocation`: scan the candidates keeping the nearest one. -/
def pickBestLocation (dist : ℚ → ℚ → ℚ → ℚ → ℚ) (storeLat storeLon : ℚ)
    (locations : List KrogerLocation) : Option (KrogerLocation × ℚ) :=
  locations.foldl (pickBestStep dist storeLat storeLon) none

/-- `resolveLocationId`: use a fresh persisted mapping if one exists;
otherwise (when the rate limit admits the locations call, `rlOk`) pick the
nearest candidate of the locations-near-store response, reject it beyond
700 m, and otherwise persist a mapping scored `max(0, 1 − d/700)` and
return its location id.  Returns the resolved id (if any) together with
the mapping row written (if any). -/
def resolveLocationId (mappingOpt : Option MappingRow) (rlOk : Bool)
    (dist : ℚ → ℚ → ℚ → ℚ → ℚ) (store_id : String) (storeLat storeLon : ℚ)
    (locations : List KrogerLocation) (t : ℕ) : Option String × Option MappingRow :=
  match getMappedLocationId mappingOpt t with
  | some memo => (some memo, none)
  | none =>
    if !rlOk then (none, none)
    else
      match pickBestLocation dist storeLat storeLon locations with
      | none => (none, none)
      | some best =>
        if MATCH_THRESHOLD_METERS < best.2 then (none, none)
        else
          let score := max 0 (1 - best.2 / MATCH_THRESHOLD_METERS)
          let createdAt := (mappingOpt.map MappingRow.created_at).getD t
          (some best.1.locationId,
            some ⟨store_id, "kroger", best.1.locationId, "auto_nearest", score, createdAt, t⟩)

/-- The gating prefix of `getKrogerLivePriceOverlay`: disabled feature or
missing credentials short-circuit; a throwing location resolution warns
`KROGER_UNAVAILABLE_LOCATION_LOOKUP`; an unresolved location contributes
nothing (no prices, no warning); a failing token fetch warns
`KROGER_UNAVAILABLE_AUTH`.  The per-UPC fetch phase (a bounded-concurrency
fan-out reached only with a resolved location and token) is abstracted as
`fetchPhase token locationId = (prices, partial)`. -/
def livePriceOverlay (enabled creds : Bool)
    (resolution : Except Unit (Option String))
    (tokenFetch : Except Unit String)
    (fetchPhase : String → String → List (String × ℤ) × Bool) :
    List (String × ℤ) × List String :=
  if !enabled then ([], [])
  else if !creds then ([], ["KROGER_MISCONFIGURED_MISSING_CREDS"])
  else
    match resolution with
    | .error _ => ([], ["KROGER_UNAVAILABLE_LOCATION_LOOKUP"])
    | .ok none => ([], [])
    | .ok (some lid) =>
      match tokenFetch with
      | .error _ => ([], ["KROGER_UNAVAILABLE_AUTH"])
      | .ok tok =>
        let r := fetchPhase tok lid
        (r.1, if r.2 then ["KROGER_PARTIAL_OR_RATE_LIMITED"] else [])

/-- Decidable equality for thrown-or-returned results. -/
instance {ε α : Type} [DecidableEq ε] [DecidableEq α] : DecidableEq (Except ε α) := fun a b =>
  match a, b with
  | .error x, .error y =>
    if h : x = y then .isTrue (by rw [h]) else .isFalse (by simp [h])
  | .error _, .ok _ => .isFalse (by simp)
  | .ok _, .error _ => .isFalse (by simp)
  | .ok x, .ok y =>
    if h : x = y then .isTrue (by rw [h]) else .isFalse (by simp [h])

/-! ## Concrete scenarios used by the theorems below -/

/-- A dataset snapshot used by the quote-engine scenario. -/
def snapC1 (id sid u : String) (price : ℤ) : Snapshot :=
  ⟨id, sid, u, price, "USD", 500, "dataset", "dataset", 1/2, none, 500⟩

/-- The quote-engine scenario database: a three-line cart (milk, pb,
apples, quantity 1 each), Store A with all three priced 399, 549, 699
cents, Store C missing apples. -/
def dbC1 : Db :=
  { rate_limits := fun _ => none
    stores := [⟨"storeA", "Store A"⟩, ⟨"storeC", "Store C"⟩]
    products := ["milk", "pb", "apples"]
    cart_items := fun s => if s = "sess" then [⟨"milk", 1⟩, ⟨"pb", 1⟩, ⟨"apples", 1⟩] else []
    snapshots :=
      [snapC1 "a1" "storeA" "milk" 399, snapC1 "a2" "storeA" "pb" 549,
       snapC1 "a3" "storeA" "apples" 699,
       snapC1 "c1" "storeC" "milk" 399, snapC1 "c2" "storeC" "pb" 549] }

/-- The response of the quote-engine scenario. -/
def quoteC1resp : QuoteResponse :=
  ((quoteCart dbC1 "sess" ["storeA", "storeC"] 1000).1).toOption.getD ⟨"", 0, "", none, [], []⟩

/-- Fully-matched and partially-matched store quotes with the raw totals
reversed (the partial store is far cheaper), used to witness that ranking
is decided by completeness first. -/
def fullQuoteW : StoreQuote := ⟨"A", "Store A", "USD", 2, 2, 0, 1, 5000, 5000, []⟩

/-- See `fullQuoteW`. -/
def partQuoteW : StoreQuote := ⟨"B", "Store B", "USD", 2, 1, 1, 1/2, 100, 200, []⟩

/-- Price-submission scenario: the (s1, u1) pair already holds one
snapshot of 500 cents observed at time 0. -/
def dbC7 : Db :=
  { rate_limits := fun _ => none
    stores := [⟨"s1", "Store 1"⟩]
    products := ["u1"]
    cart_items := fun _ => []
    snapshots := [⟨"d0", "s1", "u1", 500, "USD", 0, "community", "manual", 1/2, some "x", 0⟩] }

/-- A 500-cent submission for the pair of `dbC7`, observed at `obs`. -/
def inC7 (obs : ℕ) : SubmitInput := ⟨"sess", "s1", "u1", 500, "USD", some obs, "manual"⟩

/-- Outlier scenario: the (s1, u1) pair has one historical price of
7 cents, so the history median is 7. -/
def dbC8 : Db :=
  { rate_limits := fun _ => none
    stores := [⟨"s1", "Store 1"⟩]
    products := ["u1"]
    cart_items := fun _ => []
    snapshots := [⟨"h1", "s1", "u1", 7, "USD", 0, "community", "manual", 1/2, some "x", 0⟩] }

/-- Outlier scenario of the spec: one historical price of 500 cents, so
the history median is 500. -/
def dbC8b : Db :=
  { dbC8 with snapshots := [⟨"h1", "s1", "u1", 500, "USD", 0, "community", "manual", 1/2, some "x", 0⟩] }

/-- A submission of `price` cents for the pair of `dbC8`/`dbC8b`. -/
def inC8 (price : ℤ) : SubmitInput := ⟨"sess", "s1", "u1", price, "USD", some 50000, "manual"⟩

/-- A 400-cent submission for (storeA, milk) of `dbC1` observed at `obs`
(no prior 400-cent snapshot exists there, and 400 is within the outlier
band of the 399-cent history median). -/
def inC7w (obs : ℕ) : SubmitInput := ⟨"sess", "storeA", "milk", 400, "USD", some obs, "manual"⟩

/-! ## Theorems -/

/-- One-step unfolding of `takeTokenRun`. -/
theorem takeTokenRun_succ (cfg : TokenBucketConfig) (t n : ℕ) (rowOpt : Option RateLimitRow) :
    takeTokenRun cfg t (n + 1) rowOpt =
      (takeToken rowOpt cfg t).1 ::
        takeTokenRun cfg t n (some (takeToken rowOpt cfg t).2) := rfl

/-- Helper: one zero-refill `takeToken` step from a stored row whose token
count is the natural number `m ≤ C`, at the stored row's own timestamp. -/
theorem takeToken_zero_refill_step (C m t : ℕ) (hm : m ≤ C) :
    takeToken (some ⟨(m : ℚ), t⟩) ⟨(C : ℚ), 0, 1⟩ t =
      (decide (1 ≤ m), ⟨if 1 ≤ m then ((m : ℚ) - 1) else (m : ℚ), t⟩) := by
  have hmin : min ((C : ℕ) : ℚ) ((m : ℚ) + max 0 ((t : ℚ) - (t : ℚ)) * 0) = (m : ℚ) := by
    rw [sub_self, mul_zero, add_zero]
    exact min_eq_right (by exact_mod_cast hm)
  have hiff : ((1 : ℚ) ≤ (m : ℚ)) ↔ (1 ≤ m) := by exact_mod_cast Iff.rfl
  have hbody : takeToken (some ⟨(m : ℚ), t⟩) ⟨(C : ℚ), 0, 1⟩ t =
      (decide ((1 : ℚ) ≤ min ((C : ℕ) : ℚ) ((m : ℚ) + max 0 ((t : ℚ) - (t : ℚ)) * 0)),
        ⟨if (1 : ℚ) ≤ min ((C : ℕ) : ℚ) ((m : ℚ) + max 0 ((t : ℚ) - (t : ℚ)) * 0)
          then min ((C : ℕ) : ℚ) ((m : ℚ) + max 0 ((t : ℚ) - (t : ℚ)) * 0) - 1
          else min ((C : ℕ) : ℚ) ((m : ℚ) + max 0 ((t : ℚ) - (t : ℚ)) * 0), t⟩) := by
    simp only [takeToken, decide_eq_true_eq, Option.map_some', Option.getD_some]
  rw [hbody, hmin]
  by_cases h1 : 1 ≤ m
  · rw [if_pos (hiff.mpr h1)]
    simp [hiff, h1]
  · rw [if_neg (fun hc => h1 (hiff.mp hc))]
    simp [hiff, h1]

/-- Helper for the exhaustion run: starting from a stored row with `m ≤ C`
tokens, zero refill and cost 1, the next `m` calls succeed and the call
after them is denied. -/
theorem takeTokenRun_exhaust_aux (C t : ℕ) :
    ∀ m : ℕ, m ≤ C →
      takeTokenRun ⟨(C : ℚ), 0, 1⟩ t (m + 1) (some ⟨(m : ℚ), t⟩) =
        List.replicate m true ++ [false] := by
  intro m
  induction m with
  | zero =>
    intro _
    rw [takeTokenRun_succ, takeToken_zero_refill_step C 0 t (Nat.zero_le C)]
    simp [takeTokenRun]
  | succ n ih =>
    intro h
    have hn : ((n + 1 : ℕ) : ℚ) - 1 = (n : ℚ) := by push_cast; ring
    have hd : decide (1 ≤ n + 1) = true := by simp
    rw [takeTokenRun_succ, takeToken_zero_refill_step C (n + 1) t h]
    simp only [hd, if_pos (Nat.le_add_left 1 n), hn]
    rw [ih (Nat.le_of_succ_le h)]
    simp [List.replicate_succ]

/-- Claim C2: token bucket exhaustion — for every capacity C ≥ 1, with
cost 1 and zero refill, starting with no stored row and a fixed clock,
a run of C+1 consecutive `takeToken` calls on the key returns `true`
exactly C times and then `false`. -/
theorem tokenBucket_exhaustion (C : ℕ) (hC : 1 ≤ C) (t : ℕ) :
    takeTokenRun ⟨(C : ℚ), 0, 1⟩ t (C + 1) none = List.replicate C true ++ [false] := by
  obtain ⟨m, rfl⟩ : ∃ m, C = m + 1 := ⟨C - 1, by omega⟩
  have hfirst : takeToken none ⟨((m + 1 : ℕ) : ℚ), 0, 1⟩ t = (true, ⟨((m : ℕ) : ℚ), t⟩) := by
    have hmin : min ((m + 1 : ℕ) : ℚ)
        (((m + 1 : ℕ) : ℚ) + max 0 ((t : ℚ) - (t : ℚ)) * 0) = ((m + 1 : ℕ) : ℚ) := by
      rw [sub_self, mul_zero, add_zero]
      exact min_self _
    have hbody : takeToken none ⟨((m + 1 : ℕ) : ℚ), 0, 1⟩ t =
        (decide ((1 : ℚ) ≤ min ((m + 1 : ℕ) : ℚ)
            (((m + 1 : ℕ) : ℚ) + max 0 ((t : ℚ) - (t : ℚ)) * 0)),
          ⟨if (1 : ℚ) ≤ min ((m + 1 : ℕ) : ℚ)
              (((m + 1 : ℕ) : ℚ) + max 0 ((t : ℚ) - (t : ℚ)) * 0)
            then min ((m + 1 : ℕ) : ℚ)
              (((m + 1 : ℕ) : ℚ) + max 0 ((t : ℚ) - (t : ℚ)) * 0) - 1
            else min ((m + 1 : ℕ) : ℚ)
              (((m + 1 : ℕ) : ℚ) + max 0 ((t : ℚ) - (t : ℚ)) * 0), t⟩) := by
      simp only [takeToken, decide_eq_true_eq, Option.map_none', Option.getD_none]
    have h1 : (1 : ℚ) ≤ ((m + 1 : ℕ) : ℚ) := by push_cast; linarith
    have h2 : ((m + 1 : ℕ) : ℚ) - 1 = ((m : ℕ) : ℚ) := by push_cast; ring
    rw [hbody, hmin, if_pos h1, h2, decide_eq_true h1]
  rw [takeTokenRun_succ, hfirst]
  rw [show ((true, (⟨((m : ℕ) : ℚ), t⟩ : RateLimitRow)).1 : Bool) = true from rfl]
  rw [show ((true, (⟨((m : ℕ) : ℚ), t⟩ : RateLimitRow)).2 : RateLimitRow) =
    ⟨((m : ℕ) : ℚ), t⟩ from rfl]
  rw [takeTokenRun_exhaust_aux (m + 1) t m (Nat.le_succ m)]
  simp [List.replicate_succ]

/-- Witness for C2 at capacity 3: three calls succeed, the fourth is
denied. -/
theorem tokenBucket_exhaustion_witness :
    takeTokenRun ⟨((3 : ℕ) : ℚ), 0, 1⟩ 0 (3 + 1) none = List.replicate 3 true ++ [false] :=
  tokenBucket_exhaustion 3 (by norm_num) 0

/-- Claim C3: `takeToken` preserves the `0 ≤ tokens ≤ capacity` invariant
of the rate-limit row it writes (written on allow and on deny alike),
whenever capacity, refill rate and cost are nonnegative and the stored row
(if any) satisfied the invariant. -/
theorem rateLimit_invariant (rowOpt : Option RateLimitRow) (cfg : TokenBucketConfig) (t : ℕ)
    (hcap : 0 ≤ cfg.capacity) (href : 0 ≤ cfg.refillPerSec) (hcost : 0 ≤ cfg.cost)
    (hrow : ∀ r, rowOpt = some r → 0 ≤ r.tokens ∧ r.tokens ≤ cfg.capacity) :
    0 ≤ (takeToken rowOpt cfg t).2.tokens ∧
      (takeToken rowOpt cfg t).2.tokens ≤ cfg.capacity := by
  have hval : (takeToken rowOpt cfg t).2.tokens =
      if cfg.cost ≤ min cfg.capacity
          ((rowOpt.map RateLimitRow.tokens).getD cfg.capacity +
            max 0 ((t : ℚ) - (((rowOpt.map RateLimitRow.updated_at).getD t : ℕ) : ℚ)) *
              cfg.refillPerSec)
      then min cfg.capacity
          ((rowOpt.map RateLimitRow.tokens).getD cfg.capacity +
            max 0 ((t : ℚ) - (((rowOpt.map RateLimitRow.updated_at).getD t : ℕ) : ℚ)) *
              cfg.refillPerSec) - cfg.cost
      else min cfg.capacity
          ((rowOpt.map RateLimitRow.tokens).getD cfg.capacity +
            max 0 ((t : ℚ) - (((rowOpt.map RateLimitRow.updated_at).getD t : ℕ) : ℚ)) *
              cfg.refillPerSec) := by
    simp only [takeToken, decide_eq_true_eq]
  rw [hval]
  set q : ℚ := (rowOpt.map RateLimitRow.tokens).getD cfg.capacity with hq
  set e : ℚ := max 0 ((t : ℚ) - (((rowOpt.map RateLimitRow.updated_at).getD t : ℕ) : ℚ)) with he
  have h0 : 0 ≤ q := by
    rw [hq]
    cases rowOpt with
    | none => simpa using hcap
    | some r => simpa using (hrow r rfl).1
  have he0 : 0 ≤ e := by rw [he]; exact le_max_left _ _
  have h1lo : 0 ≤ min cfg.capacity (q + e * cfg.refillPerSec) :=
    le_min hcap (add_nonneg h0 (mul_nonneg he0 href))
  have h1hi : min cfg.capacity (q + e * cfg.refillPerSec) ≤ cfg.capacity := min_le_left _ _
  by_cases hA : cfg.cost ≤ min cfg.capacity (q + e * cfg.refillPerSec)
  · rw [if_pos hA]
    constructor <;> linarith
  · rw [if_neg hA]
    exact ⟨h1lo, h1hi⟩

/-- Witness for C3: a concrete call from a stored row (5 tokens, capacity
10) keeps the written row inside the invariant. -/
theorem rateLimit_invariant_witness :
    0 ≤ (takeToken (some ⟨5, 0⟩) ⟨10, 1, 1⟩ 3).2.tokens ∧
      (takeToken (some ⟨5, 0⟩) ⟨10, 1, 1⟩ 3).2.tokens ≤ (10 : ℚ) :=
  rateLimit_invariant (some ⟨5, 0⟩) ⟨10, 1, 1⟩ 3 (by norm_num) (by norm_num) (by norm_num)
    (fun r hr => by cases hr; constructor <;> norm_num)

/-- Claim C6: cache expiry — a row written by `cachePut` with ttl
`ttlSeconds` is, at any read time from `t0 + ttlSeconds` on, invisible to
`cacheGet` but returned by `cachePeek` with `is_fresh = false`; and in
general `cacheGet` returns a payload exactly when `cachePeek` returns a
result flagged fresh. -/
theorem cache_expiry_semantics {α : Type} (payload : α) (ttl t0 t : ℕ) (h : t0 + ttl ≤ t) :
    cacheGet (some (cachePut payload ttl t0)) t = none ∧
    cachePeek (some (cachePut payload ttl t0)) t = some ⟨payload, t0 + ttl, false⟩ ∧
    ∀ (rowOpt : Option (CacheRow α)) (u : ℕ),
      (cacheGet rowOpt u).isSome = true ↔
        ∃ r, cachePeek rowOpt u = some r ∧ r.is_fresh = true := by
  refine ⟨?_, ?_, ?_⟩
  · simp [cacheGet, cachePut, h]
  · have hnf : ¬ (t < t0 + ttl) := by omega
    simp [cachePeek, cachePut, hnf]
  · intro rowOpt u
    cases rowOpt with
    | none => simp [cacheGet, cachePeek]
    | some row =>
      by_cases hle : row.expires_at ≤ u
      · have : ¬ (u < row.expires_at) := by omega
        simp [cacheGet, cachePeek, hle, this]
      · have : u < row.expires_at := by omega
        simp [cacheGet, cachePeek, hle, this]

/-- Witness for C6: a payload cached at time 0 with ttl 10 is expired at
time 10. -/
theorem cache_expiry_semantics_witness :
    cacheGet (some (cachePut (7 : ℕ) 10 0)) 10 = none ∧
    cachePeek (some (cachePut (7 : ℕ) 10 0)) 10 = some ⟨7, 0 + 10, false⟩ ∧
    ∀ (rowOpt : Option (CacheRow ℕ)) (u : ℕ),
      (cacheGet rowOpt u).isSome = true ↔
        ∃ r, cachePeek rowOpt u = some r ∧ r.is_fresh = true :=
  cache_expiry_semantics 7 10 0 10 (by norm_num)

/-- Helper: a failure sequence whose length completes the count from `j`
to exactly `tripAfter` leaves the breaker row at `tripAfter` failures with
the open window anchored at the last failure's time. -/
theorem recordFailures_trip (tripAfter openForSec : ℕ) :
    ∀ (ts : List ℕ) (j : ℕ), ts ≠ [] → j + ts.length = tripAfter →
      recordFailures tripAfter openForSec ts (some ⟨j, 0⟩) =
        some ⟨tripAfter, ts.getLastD 0 + openForSec⟩ := by
  intro ts
  induction ts with
  | nil => intro j h _; exact absurd rfl h
  | cons t ts ih =>
    intro j _ hlen
    cases ts with
    | nil =>
      have hj : j + 1 = tripAfter := by simpa using hlen
      have hle : tripAfter ≤ j + 1 := le_of_eq hj.symm
      simp [recordFailures, recordFailure, hle, hj]
    | cons t2 ts2 =>
      have hne : (t2 :: ts2) ≠ [] := by simp
      have hlen2 : (j + 1) + (t2 :: ts2).length = tripAfter := by
        simp only [List.length_cons] at hlen ⊢; omega
      have hlt : ¬ (tripAfter ≤ j + 1) := by
        simp only [List.length_cons] at hlen; omega
      have hstep : recordFailure (some ⟨j, 0⟩) tripAfter openForSec t = ⟨j + 1, 0⟩ := by
        simp [recordFailure, hlt]
      rw [show recordFailures tripAfter openForSec (t :: t2 :: ts2) (some ⟨j, 0⟩) =
          recordFailures tripAfter openForSec (t2 :: ts2)
            (some (recordFailure (some ⟨j, 0⟩) tripAfter openForSec t)) from rfl,
        hstep, ih (j + 1) hne hlen2]
      rw [List.getLastD_cons 0 t (t2 :: ts2), List.getLastD_cons t t2 ts2,
        List.getLastD_cons 0 t2 ts2]

/-- Claim C4: circuit breaker trip and reset — starting from a provider
with no recorded row, after exactly `tripAfter ≥ 1` consecutive
`recordFailure` calls (at the listed times, no intervening success),
`isOpen` at any instant u is true exactly when u is strictly before the
last failure's time plus `openForSeconds`; and the row `recordSuccess`
writes is ⟨0, 0⟩, on which `isOpen` is false at every instant. -/
theorem circuitBreaker_trip_and_reset (tripAfter openForSec : ℕ) (ts : List ℕ)
    (h1 : 1 ≤ tripAfter) (h2 : ts.length = tripAfter) :
    (∀ u : ℕ, isOpen (recordFailures tripAfter openForSec ts none) u =
        decide (u < ts.getLastD 0 + openForSec)) ∧
    recordSuccessRow = ⟨0, 0⟩ ∧
    (∀ u : ℕ, isOpen (some recordSuccessRow) u = false) := by
  have hne : ts ≠ [] := by
    intro h
    rw [h] at h2
    simp at h2
    omega
  have hnone : recordFailures tripAfter openForSec ts none =
      recordFailures tripAfter openForSec ts (some ⟨0, 0⟩) := by
    cases ts with
    | nil => exact absurd rfl hne
    | cons t ts2 =>
      have hstep : recordFailure none tripAfter openForSec t =
          recordFailure (some ⟨0, 0⟩) tripAfter openForSec t := by
        simp [recordFailure]
      simp only [recordFailures, hstep]
  rw [hnone, recordFailures_trip tripAfter openForSec ts 0 hne (by omega)]
  exact ⟨fun u => by simp [isOpen], rfl, fun u => by simp [isOpen, recordSuccessRow]⟩

/-- Witness for C4 with the default parameters (tripAfter 3, openFor 300)
and failures at times 10, 20, 30: the breaker state is open relative to
the window 30 + 300. -/
theorem circuitBreaker_trip_and_reset_witness :
    isOpen (recordFailures 3 300 [10, 20, 30] none) 329 =
      decide (329 < [10, 20, 30].getLastD 0 + 300) :=
  (circuitBreaker_trip_and_reset 3 300 [10, 20, 30] (by norm_num) (by norm_num)).1 329

/-- One-step unfolding of `retryLoop`. -/
theorem retryLoop_step_eq (responses : ℕ → FetchOutcome) (isIdem : Bool)
    (retryOn : List ℕ) (a k : ℕ) :
    retryLoop responses isIdem retryOn a (k + 1) =
      match responses a with
      | .ok s =>
        if !isIdem || !(retryOn.contains s) then (.success s, 1)
        else if k = 0 then (.httpError s, 1)
        else ((retryLoop responses isIdem retryOn (a + 1) k).1,
          (retryLoop responses isIdem retryOn (a + 1) k).2 + 1)
      | .err =>
        if !isIdem || k = 0 then (.transportError, 1)
        else ((retryLoop responses isIdem retryOn (a + 1) k).1,
          (retryLoop responses isIdem retryOn (a + 1) k).2 + 1) := rfl

/-- Helper: a retryable status on a non-final attempt of an idempotent
request recurses to the next attempt, adding one fetch call. -/
theorem retryLoop_retry_step (responses : ℕ → FetchOutcome) (retryOn : List ℕ)
    (a k s : ℕ) (h : responses a = .ok s) (hs : s ∈ retryOn) :
    retryLoop responses true retryOn a (k + 2) =
      ((retryLoop responses true retryOn (a + 1) (k + 1)).1,
        (retryLoop responses true retryOn (a + 1) (k + 1)).2 + 1) := by
  rw [retryLoop_step_eq responses true retryOn a (k + 1), h]
  simp [hs]

/-- Helper: a non-retryable status returns the response at once. -/
theorem retryLoop_return_step (responses : ℕ → FetchOutcome) (retryOn : List ℕ)
    (isIdem : Bool) (a k s : ℕ) (h : responses a = .ok s)
    (hs : s ∉ retryOn) :
    retryLoop responses isIdem retryOn a (k + 1) = (.success s, 1) := by
  rw [retryLoop_step_eq responses isIdem retryOn a k, h]
  simp [hs]

/-- Helper: a non-idempotent request returns its first response whatever
the status. -/
theorem retryLoop_nonidem (responses : ℕ → FetchOutcome) (retryOn : List ℕ)
    (a k s : ℕ) (h : responses a = .ok s) :
    retryLoop responses false retryOn a (k + 1) = (.success s, 1) := by
  rw [retryLoop_step_eq responses false retryOn a k, h]
  simp

/-- Claim C5: retry policy — a GET whose successive responses are 503,
503, 503, 200 succeeds with the 200 response after exactly 4 underlying
fetch calls whenever `attempts ≥ 4`, 503 is retryable and 200 is not; and
a POST (non-idempotent by default) whose first response is 503 returns
after exactly one underlying fetch call, never retrying. -/
theorem httpRetry_policy (responses postResponses : ℕ → FetchOutcome) (retryOn : List ℕ)
    (attempts attempts2 : ℕ)
    (h503 : 503 ∈ retryOn) (h200 : 200 ∉ retryOn) (h4 : 4 ≤ attempts)
    (hr1 : responses 1 = .ok 503) (hr2 : responses 2 = .ok 503)
    (hr3 : responses 3 = .ok 503) (hr4 : responses 4 = .ok 200)
    (hp1 : postResponses 1 = .ok 503) :
    fetchWithRetry responses "GET" none retryOn attempts = (.success 200, 4) ∧
    fetchWithRetry postResponses "POST" none retryOn attempts2 = (.success 503, 1) := by
  constructor
  · obtain ⟨k, rfl⟩ : ∃ k, attempts = k + 4 := ⟨attempts - 4, by omega⟩
    have hunf : fetchWithRetry responses "GET" none retryOn (k + 4) =
        retryLoop responses true retryOn 1 (max 1 (k + 4)) := rfl
    rw [hunf, show max 1 (k + 4) = (k + 2) + 2 from by omega]
    rw [retryLoop_retry_step responses retryOn 1 (k + 2) 503 hr1 h503]
    rw [show (1 : ℕ) + 1 = 2 from rfl, show k + 2 + 1 = (k + 1) + 2 from rfl]
    rw [retryLoop_retry_step responses retryOn 2 (k + 1) 503 hr2 h503]
    rw [show (2 : ℕ) + 1 = 3 from rfl, show k + 1 + 1 = k + 2 from rfl]
    rw [retryLoop_retry_step responses retryOn 3 k 503 hr3 h503]
    rw [show (3 : ℕ) + 1 = 4 from rfl]
    rw [retryLoop_return_step responses retryOn true 4 k 200 hr4 h200]
  · have hunf : fetchWithRetry postResponses "POST" none retryOn attempts2 =
        retryLoop postResponses false retryOn 1 (max 1 attempts2) := rfl
    obtain ⟨m, hm⟩ : ∃ m, max 1 attempts2 = m + 1 := ⟨max 1 attempts2 - 1, by omega⟩
    rw [hunf, hm]
    exact retryLoop_nonidem postResponses retryOn 1 m 503 hp1

/-- Witness for C5 at the standard retryable-status set with attempts = 4. -/
theorem httpRetry_policy_witness :
    fetchWithRetry (fun n => if n ≤ 3 then .ok 503 else .ok 200) "GET" none
        [429, 500, 502, 503, 504] 4 = (.success 200, 4) ∧
    fetchWithRetry (fun _ => .ok 503) "POST" none [429, 500, 502, 503, 504] 4 =
      (.success 503, 1) :=
  httpRetry_policy (fun n => if n ≤ 3 then .ok 503 else .ok 200) (fun _ => .ok 503)
    [429, 500, 502, 503, 504] 4 4 (by decide) (by decide) (by decide)
    (by decide) (by decide) (by decide) rfl rfl

/-- Claim C1: quote engine concrete scenario — with the three-line cart,
the fully priced store gets completeness 1, total 1647 and adjusted total
1647; the store matching 2 of 3 lines gets completeness 2/3 and adjusted
total `round(948 / (2/3))`; the fully matched store is chosen cheapest;
and in general the ranking places a store with strictly greater
completeness first, regardless of either store's totals. -/
theorem quote_engine_scenario :
    quoteC1resp.cheapest_store_id = some "storeA" ∧
    quoteC1resp.stores.map
        (fun s => (s.store_id, s.completeness, s.total_cents, s.adjusted_total_cents)) =
      [("storeA", 1, 1647, 1647), ("storeC", 2/3, 948, 1422)] ∧
    (1422 : ℤ) = jsRound ((948 : ℚ) / (2/3)) ∧
    ∀ a b : StoreQuote, b.completeness < a.completeness →
      rankStores [a, b] = [a, b] ∧ rankStores [b, a] = [a, b] := by
  refine ⟨by decide, by decide, by decide, ?_⟩
  intro a b hlt
  have hne : a.completeness ≠ b.completeness := (ne_of_lt hlt).symm
  have h1 : quoteBefore a b = true := by
    simp [quoteBefore, hne, hlt]
  have h2 : quoteBefore b a = false := by
    simp [quoteBefore, ne_of_lt hlt, lt_asymm hlt]
  constructor
  · simp [rankStores, insertRanked, h1]
  · simp [rankStores, insertRanked, h2]

/-- Witness for C1's generic ranking clause: the fully matched store is
ranked first although its raw total (5000) far exceeds the partially
matched store's raw total (100). -/
theorem quote_engine_scenario_witness :
    rankStores [fullQuoteW, partQuoteW] = [fullQuoteW, partQuoteW] ∧
    rankStores [partQuoteW, fullQuoteW] = [fullQuoteW, partQuoteW] :=
  quote_engine_scenario.2.2.2 fullQuoteW partQuoteW (by decide)

/-- Counterexample to C7 as stated: in `dbC7`, submitting (s1, u1, 500)
observed at 3600 and then at 7200 (exactly one hour apart, both passing
the rate limit, store and product existing) returns two different
snapshot ids — the first call is deduplicated against the pre-existing
row `d0` observed at 0, while the second falls outside that row's one-hour
window and inserts a fresh row. -/
theorem submit_idempotence_counterexample :
    (submitPrice dbC7 (inC7 3600) 10000 "n1").1 = .ok "d0" ∧
    (submitPrice (submitPrice dbC7 (inC7 3600) 10000 "n1").2 (inC7 7200) 10000 "n2").1 =
      .ok "n2" ∧
    ((submitPrice (submitPrice dbC7 (inC7 3600) 10000 "n1").2 (inC7 7200) 10000 "n2").2).snapshots.length = 2 ∧
    dbC7.snapshots.length = 1 ∧
    ("d0" : String) ≠ "n2" ∧
    |(3600 : ℤ) - 7200| ≤ 3600 := by
  refine ⟨by decide, by decide, by decide, by decide, by decide, by decide⟩

/-- Counterexample to C8 as stated: in `dbC8` the history median for
(s1, u1) is 7, and a submission of 2 cents lies outside the claimed band
[0.3 × 7, 3.0 × 7] (2 < 2.1), yet the code accepts it and inserts a row,
because it floors the lower bound to `Math.floor(2.1) = 2`. -/
theorem submit_outlier_counterexample :
    median (recentHistory dbC8.snapshots "s1" "u1") = some 7 ∧
    ((2 : ℚ) < (3/10) * 7) ∧
    (submitPrice dbC8 (inC8 2) 50000 "n1").1 = .ok "n1" ∧
    ((submitPrice dbC8 (inC8 2) 50000 "n1").2).snapshots.length = 2 := by
  refine ⟨by decide, by decide, by decide, by decide⟩

/-- Claim C8 (amended): outlier rejection — for a submission that passes
the rate limit, store/product existence, timestamp and duplicate checks,
and whose (store, upc) pair has prior history with median m, the call is
rejected with `OUTLIER_PRICE` (inserting no row) exactly when the price
falls outside the integer band [⌊0.3 × m⌋, ⌈3.0 × m⌉]; in particular with
median 500 a submission of 100 cents is rejected and one of 490 cents is
accepted. -/
theorem submit_outlier_rule (db : Db) (input : SubmitInput) (t : ℕ) (newId : String) (m : ℤ)
    (hrl : (takeToken (db.rate_limits ("price_submit:" ++ input.session_id)) RL_SUBMIT t).1 = true)
    (hstore : (db.stores.find? (fun s => decide (s.id = input.store_id))).isNone = false)
    (hprod : db.products.contains input.upc = true)
    (hfut : input.observed_at.getD t ≤ t + 86400)
    (hdup : db.snapshots.find? (dupPred input (input.observed_at.getD t)) = none)
    (hmed : median (recentHistory db.snapshots input.store_id input.upc) = some m) :
    ((submitPrice db input t newId).1 = .error "OUTLIER_PRICE" ↔
      (input.price_cents < ⌊(m : ℚ) * (3/10)⌋ ∨ ⌈(m : ℚ) * 3⌉ < input.price_cents)) ∧
    ((input.price_cents < ⌊(m : ℚ) * (3/10)⌋ ∨ ⌈(m : ℚ) * 3⌉ < input.price_cents) →
      ((submitPrice db input t newId).2).snapshots = db.snapshots) ∧
    (submitPrice dbC8b (inC8 100) 50000 "w1").1 = .error "OUTLIER_PRICE" ∧
    (submitPrice dbC8b (inC8 490) 50000 "w1").1 = .ok "w1" := by
  have hnf : ¬ (t + 86400 < input.observed_at.getD t) := not_lt.mpr hfut
  have hprodm : input.upc ∈ db.products := by simpa using hprod
  by_cases hout : (input.price_cents < ⌊(m : ℚ) * (3/10)⌋ ∨ ⌈(m : ℚ) * 3⌉ < input.price_cents)
  · have hb : isOutlierPrice (median (recentHistory db.snapshots input.store_id input.upc))
        input.price_cents = true := by
      rw [hmed]
      simpa [isOutlierPrice] using hout
    refine ⟨?_, ?_, by decide, by decide⟩
    · simp [submitPrice, hrl, hstore, hprod, hprodm, hnf, hdup, hb, hout]
    · intro _
      simp [submitPrice, hrl, hstore, hprod, hprodm, hnf, hdup, hb]
  · have hb : isOutlierPrice (median (recentHistory db.snapshots input.store_id input.upc))
        input.price_cents = false := by
      rw [hmed]
      simpa [isOutlierPrice] using hout
    refine ⟨?_, fun hc => absurd hc hout, by decide, by decide⟩
    simp [submitPrice, hrl, hstore, hprod, hprodm, hnf, hdup, hb, hout]

/-- Witness for C8's amended rule at the spec's concrete numbers: in
`dbC8b` (history median 500) a 100-cent submission satisfies the outlier
biconditional. -/
theorem submit_outlier_rule_witness :
    ((submitPrice dbC8b (inC8 100) 50000 "w2").1 = .error "OUTLIER_PRICE" ↔
      ((100 : ℤ) < ⌊((500 : ℤ) : ℚ) * (3/10)⌋ ∨ ⌈((500 : ℤ) : ℚ) * 3⌉ < (100 : ℤ))) :=
  (submit_outlier_rule dbC8b (inC8 100) 50000 "w2" 500 (by decide) (by decide) (by decide)
    (by decide) (by decide) (by decide)).1

/-- Helper: the per-store quote keeps the store's id. -/
theorem storeQuoteFor_store_id (snaps : List Snapshot) (cartItems : List CartItemRow)
    (t : ℕ) (s : StoreRow) : (storeQuoteFor snaps cartItems t s).store_id = s.id := rfl

/-- Helper: the store quotes quoteCart builds are in bijection (by store
id) with the resolvable ids of its truncated store list. -/
theorem storeQuotes_map_id (stores : List StoreRow) (snaps : List Snapshot)
    (cartItems : List CartItemRow) (t : ℕ) (l : List String) :
    ((l.filter (fun id => (stores.find? (fun s => decide (s.id = id))).isSome)).filterMap
        (fun store_id => (stores.find? (fun s => decide (s.id = store_id))).map
          (storeQuoteFor snaps cartItems t))).map StoreQuote.store_id =
      l.filter (fun id => (stores.find? (fun s => decide (s.id = id))).isSome) := by
  induction l with
  | nil => rfl
  | cons id l ih =>
    by_cases hf : (stores.find? (fun s => decide (s.id = id))).isSome = true
    · obtain ⟨s, hs⟩ := Option.isSome_iff_exists.mp hf
      have hid : s.id = id := by simpa using List.find?_some hs
      simp [List.filter_cons, List.filterMap_cons, hs, storeQuoteFor_store_id, hid, ih]
    · simp [List.filter_cons, hf, ih]

/-- Claim C10: implicit store-count cap — a successful quoteCart response
evaluates exactly the resolvable ids among the first 20 distinct requested
store ids (duplicates collapsed, ids beyond the first 20 distinct silently
dropped), so its stores array has length at most 20, and its warnings
(CART_EMPTY and the UNKNOWN_STORES list) are derived from the first 20
distinct ids only. -/
theorem quote_store_cap (db : Db) (sess : String) (ids : List String) (t : ℕ)
    (resp : QuoteResponse) (h : (quoteCart db sess ids t).1 = .ok resp) :
    resp.stores.map StoreQuote.store_id =
      ((dedupPreserve ids).take 20).filter
        (fun id => (db.stores.find? (fun s => decide (s.id = id))).isSome) ∧
    resp.stores.length ≤ 20 ∧
    resp.warnings =
      (if (db.cart_items sess).length = 0 then ["CART_EMPTY"] else []) ++
        (if (((dedupPreserve ids).take 20).filter
              (fun id => !(db.stores.find? (fun s => decide (s.id = id))).isSome)).isEmpty
          then []
          else ["UNKNOWN_STORES:" ++ String.intercalate ","
            (((dedupPreserve ids).take 20).filter
              (fun id => !(db.stores.find? (fun s => decide (s.id = id))).isSome))]) := by
  by_cases htk : (takeToken (db.rate_limits ("quote:" ++ sess)) RL_QUOTE t).1 = true
  · simp only [quoteCart, htk, Bool.not_true, Bool.false_eq_true, if_false] at h
    obtain rfl : resp = _ := (Except.ok.injEq _ _).mp h.symm
    refine ⟨?_, ?_, rfl⟩
    · exact storeQuotes_map_id db.stores db.snapshots (db.cart_items sess) t
        ((dedupPreserve ids).take 20)
    · have hlen := congrArg List.length
        (storeQuotes_map_id db.stores db.snapshots (db.cart_items sess) t
          ((dedupPreserve ids).take 20))
      rw [List.length_map] at hlen
      rw [hlen]
      exact le_trans (List.length_filter_le _ _) (by rw [List.length_take]; omega)
  · exfalso
    have hfalse : (takeToken (db.rate_limits ("quote:" ++ sess)) RL_QUOTE t).1 = false := by
      revert htk
      cases (takeToken (db.rate_limits ("quote:" ++ sess)) RL_QUOTE t).1 <;> simp
    simp [quoteCart, hfalse] at h

/-- Witness for C10 on the concrete quote scenario. -/
theorem quote_store_cap_witness :
    quoteC1resp.stores.map StoreQuote.store_id =
      ((dedupPreserve ["storeA", "storeC"]).take 20).filter
        (fun id => (dbC1.stores.find? (fun s => decide (s.id = id))).isSome) ∧
    quoteC1resp.stores.length ≤ 20 ∧
    quoteC1resp.warnings =
      (if (dbC1.cart_items "sess").length = 0 then ["CART_EMPTY"] else []) ++
        (if (((dedupPreserve ["storeA", "storeC"]).take 20).filter
              (fun id => !(dbC1.stores.find? (fun s => decide (s.id = id))).isSome)).isEmpty
          then []
          else ["UNKNOWN_STORES:" ++ String.intercalate ","
            (((dedupPreserve ["storeA", "storeC"]).take 20).filter
              (fun id => !(dbC1.stores.find? (fun s => decide (s.id = id))).isSome))]) :=
  quote_store_cap dbC1 "sess" ["storeA", "storeC"] 1000 quoteC1resp (by decide)

/-- Helper: invariant of `pickBestLocation`'s fold starting from a
candidate pair — the result is the starting pair or a scanned candidate
with its own distance, never farther than the start, and at most every
scanned candidate's distance. -/
theorem pickBestStep_fold (dist : ℚ → ℚ → ℚ → ℚ → ℚ) (sLat sLon : ℚ) :
    ∀ (locs : List KrogerLocation) (p : KrogerLocation × ℚ),
      ∃ loc d, locs.foldl (pickBestStep dist sLat sLon) (some p) = some (loc, d) ∧
        ((loc, d) = p ∨ (loc ∈ locs ∧ d = dist sLat sLon loc.lat loc.lon)) ∧
        d ≤ p.2 ∧ ∀ l ∈ locs, d ≤ dist sLat sLon l.lat l.lon := by
  intro locs
  induction locs with
  | nil =>
    intro p
    exact ⟨p.1, p.2, rfl, Or.inl rfl, le_refl _, by simp⟩
  | cons x xs ih =>
    intro p
    by_cases hlt : dist sLat sLon x.lat x.lon < p.2
    · have hstep : pickBestStep dist sLat sLon (some p) x =
          some (x, dist sLat sLon x.lat x.lon) := by
        simp [pickBestStep, hlt]
      obtain ⟨loc, d, heq, hmem, hle, hall⟩ := ih (x, dist sLat sLon x.lat x.lon)
      refine ⟨loc, d, ?_, ?_, ?_, ?_⟩
      · rw [List.foldl_cons, hstep]
        exact heq
      · rcases hmem with h | h
        · have h1 : loc = x := congrArg Prod.fst h
          have h2 : d = dist sLat sLon x.lat x.lon := congrArg Prod.snd h
          exact Or.inr ⟨h1 ▸ List.mem_cons_self x xs, by rw [h2, h1]⟩
        · exact Or.inr ⟨List.mem_cons_of_mem x h.1, h.2⟩
      · exact le_trans hle (le_of_lt hlt)
      · intro l hl
        rcases List.mem_cons.mp hl with rfl | hl2
        · exact hle
        · exact hall l hl2
    · have hstep : pickBestStep dist sLat sLon (some p) x = some p := by
        simp [pickBestStep, hlt]
      obtain ⟨loc, d, heq, hmem, hle, hall⟩ := ih p
      refine ⟨loc, d, ?_, ?_, hle, ?_⟩
      · rw [List.foldl_cons, hstep]
        exact heq
      · rcases hmem with h | h
        · exact Or.inl h
        · exact Or.inr ⟨List.mem_cons_of_mem x h.1, h.2⟩
      · intro l hl
        rcases List.mem_cons.mp hl with rfl | hl2
        · exact le_trans hle (not_lt.mp hlt)
        · exact hall l hl2

/-- Helper: what `pickBestLocation` returns is a candidate of the list, at
its own distance from the store, and that distance is minimal over all
candidates. -/
theorem pickBestLocation_spec (dist : ℚ → ℚ → ℚ → ℚ → ℚ) (sLat sLon : ℚ)
    (locs : List KrogerLocation) (loc : KrogerLocation) (d : ℚ)
    (h : pickBestLocation dist sLat sLon locs = some (loc, d)) :
    loc ∈ locs ∧ d = dist sLat sLon loc.lat loc.lon ∧
      ∀ l ∈ locs, d ≤ dist sLat sLon l.lat l.lon := by
  cases locs with
  | nil => exact absurd h (by simp [pickBestLocation])
  | cons x xs =>
    have h0 : pickBestLocation dist sLat sLon (x :: xs) =
        xs.foldl (pickBestStep dist sLat sLon) (some (x, dist sLat sLon x.lat x.lon)) := by
      simp [pickBestLocation, pickBestStep]
    obtain ⟨loc2, d2, heq, hmem, hle, hall⟩ :=
      pickBestStep_fold dist sLat sLon xs (x, dist sLat sLon x.lat x.lon)
    rw [h0, heq] at h
    have hpair := (Option.some.injEq _ _).mp h
    have hloc : loc2 = loc := congrArg Prod.fst hpair
    have hd : d2 = d := congrArg Prod.snd hpair
    rw [hloc, hd] at hmem
    rw [hd] at hle hall
    refine ⟨?_, ?_, ?_⟩
    · rcases hmem with hp | hp
      · have h1 : loc = x := congrArg Prod.fst hp
        exact h1 ▸ List.mem_cons_self x xs
      · exact List.mem_cons_of_mem x hp.1
    · rcases hmem with hp | hp
      · have h1 : loc = x := congrArg Prod.fst hp
        have h2 : d = dist sLat sLon x.lat x.lon := congrArg Prod.snd hp
        rw [h2, h1]
      · exact hp.2
    · intro l hl
      rcases List.mem_cons.mp hl with rfl | hl2
      · exact hle
      · exact hall l hl2

/-- Claim C9: live-price location matching — with no fresh persisted
mapping and the rate limit admitting the locations call, the candidate
`pickBestLocation` selects is the nearest one by the distance function;
when its distance is at most 700 m, `resolveLocationId` returns it and
persists a mapping scored `max(0, 1 − d/700)`; when the nearest candidate
is farther than 700 m, no location and no mapping result; and an overlay
whose location resolution yields no id contributes no prices and no
warning. -/
theorem kroger_location_matching (dist : ℚ → ℚ → ℚ → ℚ → ℚ)
    (mappingOpt : Option MappingRow) (store_id : String) (sLat sLon : ℚ)
    (locs : List KrogerLocation) (t : ℕ) (loc : KrogerLocation) (d : ℚ)
    (hfresh : getMappedLocationId mappingOpt t = none)
    (hbest : pickBestLocation dist sLat sLon locs = some (loc, d)) :
    (loc ∈ locs ∧ d = dist sLat sLon loc.lat loc.lon ∧
      ∀ l ∈ locs, d ≤ dist sLat sLon l.lat l.lon) ∧
    (d ≤ 700 →
      resolveLocationId mappingOpt true dist store_id sLat sLon locs t =
        (some loc.locationId,
          some ⟨store_id, "kroger", loc.locationId, "auto_nearest", max 0 (1 - d / 700),
            (mappingOpt.map MappingRow.created_at).getD t, t⟩)) ∧
    (700 < d → resolveLocationId mappingOpt true dist store_id sLat sLon locs t =
      (none, none)) ∧
    (∀ (tokenFetch : Except Unit String)
        (fetchPhase : String → String → List (String × ℤ) × Bool),
      livePriceOverlay true true (Except.ok none) tokenFetch fetchPhase = ([], [])) := by
  refine ⟨pickBestLocation_spec dist sLat sLon locs loc d hbest, ?_, ?_, ?_⟩
  · intro hle
    have hq : ¬ (MATCH_THRESHOLD_METERS < d) := by
      rw [MATCH_THRESHOLD_METERS]
      exact not_lt.mpr hle
    simp [resolveLocationId, hfresh, hbest, hq, hle, MATCH_THRESHOLD_METERS]
  · intro hgt
    have hq : MATCH_THRESHOLD_METERS < d := by
      rw [MATCH_THRESHOLD_METERS]
      exact hgt
    simp [resolveLocationId, hfresh, hbest, hq]
  · intro tokenFetch fetchPhase
    rfl

/-- Witness for C9: a single candidate 100 m away is accepted and mapped
with score `max(0, 1 − 100/700)`. -/
theorem kroger_location_matching_witness :
    resolveLocationId none true (fun _ _ _ _ => (100 : ℚ)) "s1" 0 0 [⟨"L1", 1, 1⟩] 5 =
      (some (KrogerLocation.locationId ⟨"L1", 1, 1⟩),
        some ⟨"s1", "kroger", KrogerLocation.locationId ⟨"L1", 1, 1⟩, "auto_nearest",
          max 0 (1 - (100 : ℚ) / 700),
          ((none : Option MappingRow).map MappingRow.created_at).getD 5, 5⟩) :=
  (kroger_location_matching (fun _ _ _ _ => (100 : ℚ)) none "s1" 0 0 [⟨"L1", 1, 1⟩] 5
    ⟨"L1", 1, 1⟩ 100 rfl rfl).2.1 (by norm_num)

/-- Claim C7 (amended): price submission idempotence — for two
submissions of the same (store_id, upc, price_cents) whose observed times
are at most one hour apart, both passing the rate limit, with the store
and product existing and valid timestamps, and provided additionally that
no snapshot with that same (store_id, upc, price_cents) triple exists
before the first call and the first call succeeds: the second call
returns the very snapshot id the first call returned and inserts no
second row. -/
theorem submit_price_idempotence (db : Db) (in1 in2 : SubmitInput) (t1 t2 : ℕ)
    (id1 id2 s1 : String)
    (hstore_eq : in2.store_id = in1.store_id) (hupc_eq : in2.upc = in1.upc)
    (hprice_eq : in2.price_cents = in1.price_cents)
    (hclean : ∀ s ∈ db.snapshots,
      ¬(s.store_id = in1.store_id ∧ s.upc = in1.upc ∧ s.price_cents = in1.price_cents))
    (hrl1 : (takeToken (db.rate_limits ("price_submit:" ++ in1.session_id)) RL_SUBMIT t1).1
      = true)
    (hstore1 : (db.stores.find? (fun s => decide (s.id = in1.store_id))).isNone = false)
    (hprod1 : db.products.contains in1.upc = true)
    (hfut1 : in1.observed_at.getD t1 ≤ t1 + 86400)
    (h1 : (submitPrice db in1 t1 id1).1 = .ok s1)
    (hrl2 : (takeToken (((submitPrice db in1 t1 id1).2).rate_limits
        ("price_submit:" ++ in2.session_id)) RL_SUBMIT t2).1 = true)
    (hfut2 : in2.observed_at.getD t2 ≤ t2 + 86400)
    (hwin : |((in1.observed_at.getD t1 : ℕ) : ℤ) - ((in2.observed_at.getD t2 : ℕ) : ℤ)|
      ≤ 3600) :
    (submitPrice ((submitPrice db in1 t1 id1).2) in2 t2 id2).1 = .ok s1 ∧
    ((submitPrice ((submitPrice db in1 t1 id1).2) in2 t2 id2).2).snapshots =
      ((submitPrice db in1 t1 id1).2).snapshots ∧
    s1 = id1 := by
  have hnf1 : ¬ (t1 + 86400 < in1.observed_at.getD t1) := not_lt.mpr hfut1
  have hnf2 : ¬ (t2 + 86400 < in2.observed_at.getD t2) := not_lt.mpr hfut2
  have hprodm1 : in1.upc ∈ db.products := by simpa using hprod1
  have hdup1 : db.snapshots.find? (dupPred in1 (in1.observed_at.getD t1)) = none := by
    apply List.find?_eq_none.mpr
    intro s hs
    have hcl := hclean s hs
    simp only [dupPred, Bool.and_eq_true, decide_eq_true_eq, not_and]
    tauto
  have hdupA2 : db.snapshots.find? (dupPred in2 (in2.observed_at.getD t2)) = none := by
    apply List.find?_eq_none.mpr
    intro s hs
    have hcl := hclean s hs
    simp only [dupPred, Bool.and_eq_true, decide_eq_true_eq, not_and, hstore_eq, hupc_eq,
      hprice_eq]
    tauto
  by_cases hout : isOutlierPrice
      (median (recentHistory db.snapshots in1.store_id in1.upc)) in1.price_cents = true
  · exfalso
    have herr : (submitPrice db in1 t1 id1).1 = .error "OUTLIER_PRICE" := by
      simp [submitPrice, hrl1, hstore1, hprod1, hprodm1, hnf1, hdup1, hout]
    rw [herr] at h1
    exact absurd h1 (by simp)
  · have hout' : isOutlierPrice
        (median (recentHistory db.snapshots in1.store_id in1.upc)) in1.price_cents = false := by
      revert hout
      cases isOutlierPrice (median (recentHistory db.snapshots in1.store_id in1.upc))
        in1.price_cents <;> simp
    have hfst1 : (submitPrice db in1 t1 id1).1 = .ok id1 := by
      simp [submitPrice, hrl1, hstore1, hprod1, hprodm1, hnf1, hdup1, hout']
    have hs1id : s1 = id1 := by
      rw [hfst1] at h1
      exact ((Except.ok.injEq _ _).mp h1).symm
    have hsnap1 : ((submitPrice db in1 t1 id1).2).snapshots =
        db.snapshots ++ [⟨id1, in1.store_id, in1.upc, in1.price_cents, in1.currency,
          in1.observed_at.getD t1, "community", in1.evidence_type,
          clamp01 (if in1.evidence_type = "receipt_text" then 3/5 else 9/20),
          some in1.session_id, t1⟩] := by
      simp [submitPrice, hrl1, hstore1, hprod1, hprodm1, hnf1, hdup1, hout']
    have hstores1 : ((submitPrice db in1 t1 id1).2).stores = db.stores := by
      simp [submitPrice, hrl1, hstore1, hprod1, hprodm1, hnf1, hdup1, hout']
    have hprods1 : ((submitPrice db in1 t1 id1).2).products = db.products := by
      simp [submitPrice, hrl1, hstore1, hprod1, hprodm1, hnf1, hdup1, hout']
    have hstore2 : (((submitPrice db in1 t1 id1).2).stores.find?
        (fun s => decide (s.id = in2.store_id))).isNone = false := by
      simp only [hstores1, hstore_eq]
      exact hstore1
    have hprod2 : ((submitPrice db in1 t1 id1).2).products.contains in2.upc = true := by
      simp only [hprods1, hupc_eq]
      exact hprod1
    have hprodm2 : in2.upc ∈ ((submitPrice db in1 t1 id1).2).products := by
      simpa using hprod2
    have hdup2 : ((submitPrice db in1 t1 id1).2).snapshots.find?
        (dupPred in2 (in2.observed_at.getD t2)) =
        some ⟨id1, in1.store_id, in1.upc, in1.price_cents, in1.currency,
          in1.observed_at.getD t1, "community", in1.evidence_type,
          clamp01 (if in1.evidence_type = "receipt_text" then 3/5 else 9/20),
          some in1.session_id, t1⟩ := by
      rw [hsnap1, List.find?_append, hdupA2]
      simp [dupPred, hstore_eq, hupc_eq, hprice_eq, hwin]
    generalize hg : (submitPrice db in1 t1 id1).2 = db1 at hrl2 hstore2 hprod2 hprodm2 hdup2 ⊢
    refine ⟨?_, ?_, hs1id⟩
    · have hres : (submitPrice db1 in2 t2 id2).1 = .ok id1 := by
        simp [submitPrice, hrl2, hstore2, hprod2, hprodm2, hnf2, hdup2]
      rw [hres, hs1id]
    · simp [submitPrice, hrl2, hstore2, hprod2, hprodm2, hnf2, hdup2]

/-- Witness for C7's amended idempotence: in a database whose
(storeA, milk) pair has no prior 400-cent snapshot, submitting 400 cents
at observed times 3600 and 4000 returns id "n1" both times and keeps the
snapshot list unchanged after the second call. -/
theorem submit_price_idempotence_witness :
    (submitPrice ((submitPrice dbC1 (inC7w 3600) 10000 "n1").2) (inC7w 4000) 10000 "n2").1 =
      .ok "n1" ∧
    ((submitPrice ((submitPrice dbC1 (inC7w 3600) 10000 "n1").2) (inC7w 4000) 10000 "n2").2).snapshots =
      ((submitPrice dbC1 (inC7w 3600) 10000 "n1").2).snapshots ∧
    ("n1" : String) = "n1" :=
  submit_price_idempotence dbC1 (inC7w 3600) (inC7w 4000) 10000 10000 "n1" "n2" "n1"
    rfl rfl rfl (by decide) (by decide) (by decide) (by decide) (by decide) (by decide)
    (by decide) (by decide) (by decide)

end Pricecart
